import Mathlib

/-!
Shallow embedding of the authorization and association core of the
hospital backend system (FastAPI/SQLModel application).

Conventions of the embedding:

* UUIDs are represented by `Nat`; timestamps by `Nat`.
* The database is a record of lists mirroring the `users`,
  `patientdoctors` and `notes` tables.
* Stateful operations are explicit state passing: a crud method that may
  mutate the session returns `Db × Except ApiError α`.  In the source,
  every raise in `PatientDoctorCrud.create` / `PatientDoctorCrud.delete`
  happens before any `db.delete` / `db.bulk_save_objects` / `db.commit`
  call, so the error branches return the input `Db` unchanged.
* The symmetric cipher (Fernet, an external collaborator per the spec) is
  embedded abstractly: a content value is either plaintext or a
  ciphertext wrapping an inner value, `encrypt` wraps, `decrypt` unwraps
  (failing on plaintext), and `is_encrypted` checks decryptability,
  exactly the try-decrypt heuristic of app/services/encryption.py.
* Python truthiness of strings ("" and None are falsy) is made explicit
  with `MText.truthy` / `optTruthy`.
-/

namespace Hospital

/-- User roles, from `UserRoleEnum` in app/schemas/user.py: exactly
`Doctor` and `Patient`.  Users are created only through `UserCreate`,
whose `role` field is this enum, so every stored user carries one of
these two values. -/
inductive UserRoleEnum where
  | doctor
  | patient
deriving DecidableEq, Repr

/-- The `users` table row (app/models/user.py), restricted to the fields
the authorization core reads. -/
structure User where
  id : Nat
  role : UserRoleEnum
deriving DecidableEq, Repr

/-- The `patientdoctors` association row (app/models/patient_doctor.py). -/
structure PatientDoctor where
  patient_id : Nat
  doctor_id : Nat
  assigned_at : Nat
deriving DecidableEq, Repr

/-- Abstract content values for the symmetric cipher collaborator:
either plaintext carrying a string, or a ciphertext wrapping an inner
content value (so double encryption is representable). -/
inductive MText where
  | plain : String → MText
  | cipher : MText → MText
deriving DecidableEq, Repr

/-- Python truthiness of the underlying string: "" is falsy, any
ciphertext string is non-empty hence truthy. -/
def MText.truthy : MText → Bool
  | .plain s => !(s == "")
  | .cipher _ => true

/-- Truthiness of `kwargs.get("content")`: `None` is falsy. -/
def optTruthy : Option MText → Bool
  | none => false
  | some t => t.truthy

/-- The `notes` table row (app/models/note.py).  `encrypted_content` is
the stored column; an unset column is modelled as the falsy value
`MText.plain ""`. -/
structure Note where
  id : Nat
  doctor_id : Nat
  patient_id : Nat
  encrypted_content : MText
deriving DecidableEq, Repr

/-- The typed failures of app/exceptions.py that the claims mention,
each carrying its `error` message. -/
inductive ApiError where
  | badRequest : String → ApiError
  | notFound : String → ApiError
  | forbidden : String → ApiError
deriving DecidableEq, Repr

/-- Classifies a result as a `Forbidden` failure. -/
def isForbidden {α : Type} : Except ApiError α → Bool
  | .error (.forbidden _) => true
  | _ => false

/-- Classifies a result as a `BadRequest` failure. -/
def isBadRequest {α : Type} : Except ApiError α → Bool
  | .error (.badRequest _) => true
  | _ => false

/-- The transactional store shared by all components. -/
structure Db where
  users : List User
  assignments : List PatientDoctor
  notes : List Note
deriving DecidableEq, Repr

/-! ### Content Confidentiality Gate (app/services/encryption.py) -/

/-- Fernet `encrypt`: wraps the content in one layer of ciphertext. -/
def encrypt (content : MText) : MText := .cipher content

/-- Fernet `decrypt`: succeeds exactly on ciphertext, returning the
wrapped value; raises `InvalidToken` (here `none`) on plaintext. -/
def decrypt : MText → Option MText
  | .cipher t => some t
  | .plain _ => none

/-- Try-decrypt heuristic: content counts as encrypted iff `decrypt`
succeeds on it. -/
def is_encrypted (content : MText) : Bool :=
  (decrypt content).isSome

/-! ### Note persistence (app/models/note.py, `Note.save`) -/

/-- Python string equality test `note.content == ""` used by the notes
router: true only for empty plaintext (ciphertext strings are never
empty). -/
def contentIsEmptyString : MText → Bool
  | .plain s => s == ""
  | .cipher _ => false

/-- Embedding of `Note.save` (app/models/note.py lines 47-66), the
encryption contract at the persistence boundary.  `content` is the
`content` keyword argument (`None` when absent).  The source reads:
first raise if both the supplied content and the stored column are
falsy; then, if the supplied content is truthy, encrypt it unless it
already looks encrypted (which is rejected); otherwise self-heal the
stored column by encrypting it once when it does not look encrypted.
A supplied-but-falsy content value takes the same `elif` path as an
absent one, which the second `match` arm spells out. -/
def Note.save (note : Note) (content : Option MText) : Except ApiError Note :=
  if !optTruthy content && !note.encrypted_content.truthy then
    .error (.badRequest "content can\x27t be empty")
  else
    match content with
    | some c =>
      if c.truthy then
        if !is_encrypted c then
          .ok { note with encrypted_content := encrypt c }
        else
          .error (.badRequest "content should not be pre-encrypted")
      else
        if !is_encrypted note.encrypted_content then
          .ok { note with encrypted_content := encrypt note.encrypted_content }
        else
          .ok note
    | none =>
      if !is_encrypted note.encrypted_content then
        .ok { note with encrypted_content := encrypt note.encrypted_content }
      else
        .ok note

/-! ### Association Ledger (app/crud/patient_doctor.py) -/

namespace PatientDoctorCrud

/-- Does a user with this id and role `Doctor` exist?  Mirrors the
`select(User.id).where(User.id.in_(ids), User.role == doctor)` filter of
`_validate_doctors` applied to a single id. -/
def isValidDoctorId (db : Db) (d : Nat) : Bool :=
  db.users.any (fun u => u.id == d && u.role == .doctor)

/-- Does the ledger contain a row for this `(patient_id, doctor_id)`
pair? -/
def pairExists (db : Db) (patient_id doctor_id : Nat) : Bool :=
  db.assignments.any
    (fun r => r.patient_id == patient_id && r.doctor_id == doctor_id)

/-- Error message of `get_by_patient_and_doctor`. -/
def notFoundMsg (doctor_id : Nat) : String :=
  "The doctor with ID " ++ toString doctor_id ++ " is not assigned to you"

/-- Error message of `_validate_doctors`. -/
def validateDoctorsMsg (invalid : List Nat) : String :=
  "The following Doctor IDs do not exist or are not doctors: [" ++
    String.intercalate ", " (invalid.map toString) ++ "]"

/-- Embedding of `PatientDoctorCrud.get_by_patient_and_doctor` (lines
25-39): first row matching the exact pair, else `NotFound` naming the
doctor. -/
def get_by_patient_and_doctor (db : Db) (patient_id doctor_id : Nat) :
    Except ApiError PatientDoctor :=
  match db.assignments.find?
      (fun r => r.patient_id == patient_id && r.doctor_id == doctor_id) with
  | some r => .ok r
  | none => .error (.notFound (notFoundMsg doctor_id))

/-- Embedding of `_get_existing_assignments` (lines 88-96): the set of
doctor ids already assigned to the patient, as a deduplicated list. -/
def get_existing_assignments (db : Db) (patient_id : Nat) : List Nat :=
  (((db.assignments.filter (fun r => r.patient_id == patient_id)).map
    (fun r => r.doctor_id)).dedup)

/-- The set difference `new_ids = set(doctor_ids) - existing` computed
by `create` (line 49). -/
def newIdsOf (db : Db) (patient_id : Nat) (doctor_ids : List Nat) : List Nat :=
  doctor_ids.dedup.filter
    (fun d => !(get_existing_assignments db patient_id).contains d)

/-- The subset of `new_ids` failing the doctor check, the set
`invalid_doctor_ids` of `_validate_doctors` (line 110). -/
def invalidIdsOf (db : Db) (patient_id : Nat) (doctor_ids : List Nat) :
    List Nat :=
  (newIdsOf db patient_id doctor_ids).filter
    (fun d => !isValidDoctorId db d)

/-- Embedding of `_validate_doctors` (lines 98-117): partition the ids
into valid and invalid; raise `BadRequest` listing every invalid id when
any exists, otherwise return the valid ids. -/
def validate_doctors (db : Db) (doctor_ids : List Nat) :
    Except ApiError (List Nat) :=
  let valid := doctor_ids.filter (fun d => isValidDoctorId db d)
  let invalid := doctor_ids.filter (fun d => !isValidDoctorId db d)
  if invalid.isEmpty then .ok valid
  else .error (.badRequest (validateDoctorsMsg invalid))

/-- Row construction `PatientDoctor(patient_id=..., doctor_id=...)`.
The `assigned_at` column default is `Field(default=datetime.now(
timezone.utc))` (app/models/patient_doctor.py lines 19-22): the default
value is computed once, when the model class is defined at module
import, so every row built without an explicit `assigned_at` carries the
same import-time timestamp, here the parameter `importTime`. -/
def mkAssignment (importTime patient_id doctor_id : Nat) : PatientDoctor :=
  { patient_id := patient_id, doctor_id := doctor_id,
    assigned_at := importTime }

/-- Embedding of `_insert_assignments` (lines 119-131): build one row
per doctor id (each taking the import-time `assigned_at` default),
bulk-save and commit them as one unit, and return the created rows. -/
def insert_assignments (importTime : Nat) (db : Db) (patient_id : Nat)
    (doctor_ids : List Nat) : Db × List PatientDoctor :=
  let rows := doctor_ids.map (fun d => mkAssignment importTime patient_id d)
  ({ db with assignments := db.assignments ++ rows }, rows)

/-- Embedding of `PatientDoctorCrud.create` (lines 41-57): reject an
empty id list; drop ids already assigned; reject when nothing new
remains; validate the new ids against the users table; insert the rows.
All raises occur before the insert, so error branches leave the store
unchanged. -/
def create (importTime : Nat) (db : Db) (patient_id : Nat)
    (doctor_ids : List Nat) : Db × Except ApiError (List PatientDoctor) :=
  if doctor_ids.isEmpty then
    (db, .error (.badRequest "Doctor IDs list cannot be empty."))
  else
    let newIds := newIdsOf db patient_id doctor_ids
    if newIds.isEmpty then
      (db, .error (.badRequest
        "All selected doctors are already assigned to this patient."))
    else
      match validate_doctors db newIds with
      | .error e => (db, .error e)
      | .ok valid =>
        let inserted := insert_assignments importTime db patient_id valid
        (inserted.1, .ok inserted.2)

/-- The list-comprehension lookup phase of `delete` (lines 73-78): look
up every requested pair in order, aborting at the first missing one. -/
def lookupAll (db : Db) (patient_id : Nat) :
    List Nat → Except ApiError (List PatientDoctor)
  | [] => .ok []
  | d :: ds => do
    let r ← get_by_patient_and_doctor db patient_id d
    let rs ← lookupAll db patient_id ds
    pure (r :: rs)

/-- Embedding of `PatientDoctorCrud.delete` (lines 59-86): reject an
empty id list; resolve every requested pair (the comprehension completes
before any `db.delete` call, so a missing pair aborts with the store
unchanged); then delete all matched rows and commit. -/
def delete (db : Db) (patient_id : Nat) (doctor_ids : List Nat) :
    Db × Except ApiError Unit :=
  if doctor_ids.isEmpty then
    (db, .error (.badRequest "Doctor IDs list cannot be empty."))
  else
    match lookupAll db patient_id doctor_ids with
    | .error e => (db, .error e)
    | .ok records =>
      ({ db with
          assignments := records.foldl (fun l r => l.erase r) db.assignments },
        .ok ())

end PatientDoctorCrud

/-! ### Generic listing (app/crud/base.py, `APICrudBase.get_all`) -/

/-- `settings.pagination_default_page` (app/core/config.py line 60). -/
def pagination_default_page : Nat := 10

/-- One equality constraint of a `filter_by` dict: absent key matches
everything. -/
def matchOpt (f : Option Nat) (x : Nat) : Bool :=
  match f with
  | none => true
  | some v => x == v

/-- Embedding of `APICrudBase.get_all` (lines 80-118) specialised to the
`Note` model with a `filter_by` dict over the `doctor_id` and
`patient_id` columns: filter, then `offset(skip).limit(limit)`. -/
def get_all (notes : List Note) (fbDoctor fbPatient : Option Nat)
    (skip limit : Nat) : List Note :=
  (((notes.filter (fun n =>
      matchOpt fbDoctor n.doctor_id && matchOpt fbPatient n.patient_id)).drop
    skip).take limit)

/-! ### Notes router (app/routers/notes.py) -/

/-- The `doctor.patients` relationship collection of app/models/user.py:
all association rows whose `doctor_id` is this user. -/
def userPatients (db : Db) (u : User) : List PatientDoctor :=
  db.assignments.filter (fun r => r.doctor_id == u.id)

/-- Embedding of `is_my_patient` (notes.py lines 29-31): membership of
the patient id in the patient ids of the association rows of the doctor. -/
def is_my_patient (patient_id : Nat) (db : Db) (doctor : User) : Bool :=
  ((userPatients db doctor).map (fun r => r.patient_id)).contains patient_id

/-- Request body of POST /notes (app/schemas/note.py `NoteCreate`). -/
structure NoteCreate where
  content : MText
  patient_id : Nat
deriving DecidableEq, Repr

/-- Embedding of the POST /notes handler `add_node` (notes.py lines
116-135): role gate, assignment gate, empty-content gate, then persist
through `Note.save` with the request content and `doctor_id = user.id`.
The new row starts with the `encrypted_content` column unset (falsy);
its generated id is the parameter `noteId`. -/
def add_node (user : User) (note : NoteCreate) (noteId : Nat) (db : Db) :
    Db × Except ApiError Note :=
  if user.role ≠ .doctor then
    (db, .error (.forbidden "You are unauthorized to perform this action"))
  else if !is_my_patient note.patient_id db user then
    (db, .error (.forbidden "This is not a patient of yours"))
  else if contentIsEmptyString note.content then
    (db, .error (.badRequest "content cannot be empty"))
  else
    let dbNote : Note :=
      { id := noteId, doctor_id := user.id, patient_id := note.patient_id,
        encrypted_content := .plain "" }
    match dbNote.save (some note.content) with
    | .error e => (db, .error e)
    | .ok saved => ({ db with notes := db.notes ++ [saved] }, .ok saved)

/-- Embedding of the GET /notes/{note_id} handler `get_note` (notes.py
lines 145-228): fetch by id through `APICrudBase.get_by_id` (`NotFound`
with message "note not found" when absent), then the ownership gate. -/
def get_note (user : User) (note_id : Nat) (db : Db) : Except ApiError Note :=
  match db.notes.find? (fun n => n.id == note_id) with
  | none => .error (.notFound "note not found")
  | some note =>
    if (user.role == .doctor && !(note.doctor_id == user.id))
        || (user.role == .patient && !(note.patient_id == user.id)) then
      .error (.forbidden "You are not authorized to read this note")
    else
      .ok note

/-- Query parameters of GET /notes (app/schemas/note.py
`NotesFilterParams`), both optional. -/
structure NotesFilterParams where
  doctor_id : Option Nat
  patient_id : Option Nat
deriving DecidableEq, Repr

/-- Embedding of the GET /notes handler `list_notes` (notes.py lines
291-319): doctors are scoped to `doctor_id == user.id`, patients to
`patient_id == user.id`, each optionally intersected with the supplied
counterpart filter.  Every branch calls `get_all` without `skip` or
`limit`, so the defaults `0` and `settings.pagination_default_page`
apply. -/
def list_notes (user : User) (fq : NotesFilterParams) (db : Db) : List Note :=
  if user.role == .doctor then
    match fq.patient_id with
    | some pid =>
      get_all db.notes (some user.id) (some pid) 0 pagination_default_page
    | none => get_all db.notes (some user.id) none 0 pagination_default_page
  else
    match fq.doctor_id with
    | some did =>
      get_all db.notes (some did) (some user.id) 0 pagination_default_page
    | none => get_all db.notes none (some user.id) 0 pagination_default_page

/-! ### Sample data used by witnesses and counterexamples -/

/-- A doctor user. -/
def sampleDoctor : User := { id := 1, role := .doctor }

/-- A second doctor user. -/
def sampleDoctor2 : User := { id := 3, role := .doctor }

/-- A patient user. -/
def samplePatient : User := { id := 2, role := .patient }

/-- A store with three users and an empty ledger. -/
def sampleDb0 : Db :=
  { users := [sampleDoctor, sampleDoctor2, samplePatient],
    assignments := [], notes := [] }

/-- A store in which doctor 1 is assigned to patient 2. -/
def sampleDb1 : Db :=
  { users := [sampleDoctor, sampleDoctor2, samplePatient],
    assignments := [{ patient_id := 2, doctor_id := 1, assigned_at := 0 }],
    notes := [] }

/-- A note written by doctor 1 about patient 2. -/
def sampleNote : Note :=
  { id := 5, doctor_id := 1, patient_id := 2,
    encrypted_content := .cipher (.plain "rest") }

/-- A store that also holds `sampleNote`. -/
def sampleDbNotes : Db :=
  { users := [sampleDoctor, sampleDoctor2, samplePatient],
    assignments := [{ patient_id := 2, doctor_id := 1, assigned_at := 0 }],
    notes := [sampleNote] }

/-- Eleven notes authored by doctor 1 about patient 2. -/
def sampleManyNotes : List Note :=
  (List.range 11).map (fun i =>
    { id := i, doctor_id := 1, patient_id := 2,
      encrypted_content := .cipher (.plain "x") })

/-- A store holding eleven notes inside the scope of doctor 1. -/
def sampleDbBig : Db :=
  { users := [sampleDoctor, samplePatient],
    assignments := [{ patient_id := 2, doctor_id := 1, assigned_at := 0 }],
    notes := sampleManyNotes }

/-! ### Helper lemmas -/

/-- Every failure of `Note.save` is a `BadRequest`. -/
theorem Note.save_error_is_badRequest (n : Note) (c : Option MText) (e : ApiError)
    (h : Note.save n c = .error e) : ∃ s, e = .badRequest s := by
  unfold Note.save at h
  split at h
  · exact ⟨_, (Except.error.inj h).symm⟩
  · split at h
    · split at h
      · split at h
        · cases h
        · exact ⟨_, (Except.error.inj h).symm⟩
      · split at h
        · cases h
        · cases h
    · split at h
      · cases h
      · cases h

/-! ### C3: empty note content -/

/-- C3 counterexample: a doctor (user 1) who is not assigned to patient 2
calls create_note with empty content on a ledger with no assignments;
the call fails with `Forbidden` ("This is not a patient of yours"), not
with `BadRequest`, so the empty-content rejection is not observed when
no assignment exists. -/
theorem C3_counterexample_empty_content_unassigned :
    add_node sampleDoctor { content := .plain "", patient_id := 2 } 9 sampleDb0
      = (sampleDb0, .error (.forbidden "This is not a patient of yours"))
    ∧ isBadRequest
        (add_node sampleDoctor { content := .plain "", patient_id := 2 } 9
          sampleDb0).2 = false := by
  constructor
  · rfl
  · rfl

/-- C3 (amended): for every doctor actor, creating a note with empty
content fails with `BadRequest` ("content cannot be empty") when the
actor is assigned to the patient; when the actor is a doctor not
assigned to the patient, the call instead fails with `Forbidden`
("This is not a patient of yours"), because the assignment check runs
before the empty-content check.  In both cases the store is unchanged. -/
theorem C3_empty_content_rejection (u : User) (note : NoteCreate)
    (noteId : Nat) (db : Db)
    (hrole : u.role = .doctor)
    (hempty : contentIsEmptyString note.content = true) :
    (is_my_patient note.patient_id db u = true →
      add_node u note noteId db
        = (db, .error (.badRequest "content cannot be empty")))
    ∧ (is_my_patient note.patient_id db u = false →
      add_node u note noteId db
        = (db, .error (.forbidden "This is not a patient of yours"))) := by
  constructor
  · intro hmine
    unfold add_node
    simp [hrole, hmine, hempty]
  · intro hmine
    unfold add_node
    simp [hrole, hmine]

/-- C3 witness: with doctor 1 assigned to patient 2, create_note with
empty content fails with `BadRequest`. -/
theorem C3_empty_content_rejection_witness :
    add_node sampleDoctor { content := .plain "", patient_id := 2 } 9 sampleDb1
      = (sampleDb1, .error (.badRequest "content cannot be empty")) :=
  (C3_empty_content_rejection sampleDoctor
      { content := .plain "", patient_id := 2 } 9 sampleDb1
      (by decide) (by decide)).1 (by decide)

/-! ### C4: note-creation authorization -/

/-- C4: note creation is permitted (not `Forbidden`) iff the actor is a
doctor and the ledger contains the pair `(patient_id, actor.id)`; a
wrong-role actor is rejected first with the "unauthorized" message
regardless of assignments, while a doctor without the assignment gets
the distinct "not a patient of yours" message; and `is_my_patient` holds
exactly when a ledger row with that pair exists. -/
theorem C4_note_creation_authorization (u : User) (note : NoteCreate)
    (noteId : Nat) (db : Db) :
    (u.role ≠ .doctor →
      add_node u note noteId db
        = (db, .error (.forbidden "You are unauthorized to perform this action")))
    ∧ (u.role = .doctor → is_my_patient note.patient_id db u = false →
      add_node u note noteId db
        = (db, .error (.forbidden "This is not a patient of yours")))
    ∧ (isForbidden (add_node u note noteId db).2 = false ↔
        (u.role = .doctor ∧ is_my_patient note.patient_id db u = true))
    ∧ (is_my_patient note.patient_id db u = true ↔
        ∃ r ∈ db.assignments,
          r.patient_id = note.patient_id ∧ r.doctor_id = u.id) := by
  refine ⟨?_, ?_, ?_, ?_⟩
  · intro hrole
    unfold add_node
    simp [hrole]
  · intro hrole hmine
    unfold add_node
    simp [hrole, hmine]
  · constructor
    · intro hperm
      by_cases hrole : u.role = .doctor
      · by_cases hmine : is_my_patient note.patient_id db u = true
        · exact ⟨hrole, hmine⟩
        · exfalso
          unfold add_node at hperm
          simp [hrole, hmine] at hperm
          simp [isForbidden] at hperm
      · exfalso
        unfold add_node at hperm
        simp [hrole] at hperm
        simp [isForbidden] at hperm
    · rintro ⟨hrole, hmine⟩
      unfold add_node
      by_cases hemp : contentIsEmptyString note.content = true
      · simp [hrole, hmine, hemp, isForbidden]
      · cases hsave : Note.save
            { id := noteId, doctor_id := u.id, patient_id := note.patient_id,
              encrypted_content := .plain "" } (some note.content) with
        | error e =>
          obtain ⟨s, hs⟩ := Note.save_error_is_badRequest _ _ _ hsave
          simp [hrole, hmine, hemp, hsave, hs, isForbidden]
        | ok saved => simp [hrole, hmine, hemp, hsave, isForbidden]
  · simp [is_my_patient, userPatients]
    constructor
    · rintro ⟨r, ⟨hr, hd⟩, hp⟩
      exact ⟨r, hr, hp, hd⟩
    · rintro ⟨r, hr, hp, hd⟩
      exact ⟨r, ⟨hr, hd⟩, hp⟩

/-- C4 witness: a patient actor attempting note creation for patient 2
is rejected with the "unauthorized" message even though the ledger does
contain an assignment for patient 2. -/
theorem C4_note_creation_authorization_witness :
    add_node samplePatient { content := .plain "rest", patient_id := 2 } 9
        sampleDb1
      = (sampleDb1,
          .error (.forbidden "You are unauthorized to perform this action")) :=
  (C4_note_creation_authorization samplePatient
      { content := .plain "rest", patient_id := 2 } 9 sampleDb1).1 (by decide)

/-! ### C5: single-note read access -/

/-- C5: get_note fails with `NotFound` when no note with the id exists;
when the lookup finds a note, it is returned iff the actor is the
authoring doctor or the subject patient, and otherwise the call fails
with `Forbidden` — so a doctor who did not author the note cannot read
it. -/
theorem C5_get_note_access (u : User) (note_id : Nat) (db : Db) :
    ((∀ n ∈ db.notes, ¬(n.id = note_id)) →
      get_note u note_id db = .error (.notFound "note not found"))
    ∧ (∀ note, db.notes.find? (fun n => n.id == note_id) = some note →
      (get_note u note_id db = .ok note ↔
        ((u.role = .doctor ∧ note.doctor_id = u.id) ∨
          (u.role = .patient ∧ note.patient_id = u.id)))
      ∧ (¬((u.role = .doctor ∧ note.doctor_id = u.id) ∨
            (u.role = .patient ∧ note.patient_id = u.id)) →
        get_note u note_id db
          = .error (.forbidden "You are not authorized to read this note"))) := by
  constructor
  · intro habsent
    have hfind : db.notes.find? (fun n => n.id == note_id) = none := by
      rw [List.find?_eq_none]
      intro n hn
      simpa using habsent n hn
    unfold get_note
    rw [hfind]
  · intro note hfind
    have hgate :
        ((u.role == .doctor && !(note.doctor_id == u.id))
          || (u.role == .patient && !(note.patient_id == u.id))) = true ↔
        ¬((u.role = .doctor ∧ note.doctor_id = u.id) ∨
          (u.role = .patient ∧ note.patient_id = u.id)) := by
      cases hr : u.role <;>
        by_cases h1 : note.doctor_id = u.id <;>
        by_cases h2 : note.patient_id = u.id <;>
        simp [hr, h1, h2]
    have hred : get_note u note_id db =
        if ((u.role == .doctor && !(note.doctor_id == u.id))
            || (u.role == .patient && !(note.patient_id == u.id))) then
          Except.error (.forbidden "You are not authorized to read this note")
        else Except.ok note := by
      unfold get_note
      rw [hfind]
    by_cases hcond :
        ((u.role == .doctor && !(note.doctor_id == u.id))
          || (u.role == .patient && !(note.patient_id == u.id))) = true
    · rw [if_pos hcond] at hred
      have hnot := hgate.mp hcond
      refine ⟨⟨?_, ?_⟩, ?_⟩
      · intro hok
        rw [hred] at hok
        cases hok
      · intro hyes
        exact absurd hyes hnot
      · intro _
        exact hred
    · rw [if_neg hcond] at hred
      have hyes : (u.role = .doctor ∧ note.doctor_id = u.id) ∨
          (u.role = .patient ∧ note.patient_id = u.id) := by
        by_contra hnot
        exact hcond (hgate.mpr hnot)
      exact ⟨⟨fun _ => hyes, fun _ => hred⟩, fun hnot => absurd hyes hnot⟩

/-- C5 witness: doctor 3, who did not author `sampleNote` (written by
doctor 1 about patient 2), is refused with `Forbidden`; the authoring
doctor 1 gets the note back. -/
theorem C5_get_note_access_witness :
    get_note sampleDoctor2 5 sampleDbNotes
      = .error (.forbidden "You are not authorized to read this note")
    ∧ get_note sampleDoctor 5 sampleDbNotes = .ok sampleNote :=
  ⟨((C5_get_note_access sampleDoctor2 5 sampleDbNotes).2 sampleNote
      (by decide)).2 (by decide),
    ((C5_get_note_access sampleDoctor 5 sampleDbNotes).2 sampleNote
      (by decide)).1.mpr (by decide)⟩

/-! ### C8: the encryption contract of Note.save -/

/-- C8: every successful `Note.save` leaves ciphertext in the stored
column; supplied plaintext is encrypted before storage; a supplied value
that already looks encrypted is rejected with `BadRequest`; with no new
content, an already-encrypted stored value is left unchanged and an
unencrypted one is encrypted exactly once; and saving with neither new
content nor stored content fails with `BadRequest`. -/
theorem C8_note_encryption_contract (note : Note) :
    (∀ content note', Note.save note content = .ok note' →
      is_encrypted note'.encrypted_content = true)
    ∧ (∀ s, ¬(s = "") →
      Note.save note (some (.plain s))
        = .ok { note with encrypted_content := encrypt (.plain s) })
    ∧ (∀ c, is_encrypted c = true →
      Note.save note (some c)
        = .error (.badRequest "content should not be pre-encrypted"))
    ∧ (is_encrypted note.encrypted_content = true →
      Note.save note none = .ok note)
    ∧ (note.encrypted_content.truthy = true →
      is_encrypted note.encrypted_content = false →
      Note.save note none
        = .ok { note with encrypted_content := encrypt note.encrypted_content })
    ∧ (note.encrypted_content.truthy = false →
      Note.save note none = .error (.badRequest "content can\x27t be empty")) := by
  refine ⟨?_, ?_, ?_, ?_, ?_, ?_⟩
  · intro content note' h
    unfold Note.save at h
    split at h
    · cases h
    · split at h
      · split at h
        · split at h
          · rw [← Except.ok.inj h]
            rfl
          · cases h
        · split at h
          · rw [← Except.ok.inj h]
            rfl
          · rename_i hcond
            rw [← Except.ok.inj h]
            simpa using hcond
      · split at h
        · rw [← Except.ok.inj h]
          rfl
        · rename_i hcond
          rw [← Except.ok.inj h]
          simpa using hcond
  · intro s hs
    unfold Note.save
    simp [optTruthy, MText.truthy, is_encrypted, decrypt, encrypt, hs]
  · intro c hc
    cases c with
    | plain s => simp [is_encrypted, decrypt] at hc
    | cipher t =>
      unfold Note.save
      simp [optTruthy, MText.truthy, is_encrypted, decrypt]
  · intro hc
    unfold Note.save
    have ht : note.encrypted_content.truthy = true := by
      cases hcc : note.encrypted_content with
      | plain s => simp [is_encrypted, decrypt, hcc] at hc
      | cipher t => rfl
    simp [optTruthy, ht, hc]
  · intro ht hc
    unfold Note.save
    simp [optTruthy, ht, hc]
  · intro ht
    unfold Note.save
    simp [optTruthy, ht]

/-- C8 witness: saving `sampleNote` with fresh plaintext "rest" stores
one new layer of ciphertext. -/
theorem C8_note_encryption_contract_witness :
    Note.save sampleNote (some (.plain "rest"))
      = .ok { sampleNote with encrypted_content := encrypt (.plain "rest") } :=
  (C8_note_encryption_contract sampleNote).2.1 "rest" (by decide)

/-! ### C10: silent pagination cap on note listing -/

/-- C10: a single list_notes call returns at most
`pagination_default_page = 10` notes for every actor, filter and store
(list_notes exposes no limit argument, so the `get_all` default always
applies); the generic `get_all` never exceeds its limit; and on a store
with 11 in-scope notes the listing silently returns exactly 10. -/
theorem C10_pagination_truncation :
    (∀ (u : User) (fq : NotesFilterParams) (db : Db),
      (list_notes u fq db).length ≤ pagination_default_page)
    ∧ pagination_default_page = 10
    ∧ (∀ (notes : List Note) (fd fp : Option Nat) (skip lim : Nat),
      (get_all notes fd fp skip lim).length ≤ lim)
    ∧ (sampleDbBig.notes.filter (fun n => n.doctor_id == 1)).length = 11
    ∧ (list_notes sampleDoctor { doctor_id := none, patient_id := none }
        sampleDbBig).length = 10 := by
  have hga : ∀ (notes : List Note) (fd fp : Option Nat) (skip lim : Nat),
      (get_all notes fd fp skip lim).length ≤ lim := by
    intro notes fd fp skip lim
    exact List.length_take_le lim _
  refine ⟨?_, rfl, hga, by decide, by decide⟩
  intro u fq db
  unfold list_notes
  split
  · cases fq.patient_id <;> exact hga _ _ _ _ _
  · cases fq.doctor_id <;> exact hga _ _ _ _ _

/-! ### C6: listing scoped to the actor -/

/-- A satisfied `matchOpt` constraint forces equality with the filtered
value. -/
theorem matchOpt_some {v x : Nat} (h : matchOpt (some v) x = true) : x = v := by
  simpa [matchOpt] using h

/-- Membership in a `get_all` result implies membership in the table and
satisfaction of both filter constraints. -/
theorem mem_get_all {notes : List Note} {fd fp : Option Nat}
    {skip lim : Nat} {n : Note} (h : n ∈ get_all notes fd fp skip lim) :
    n ∈ notes ∧ matchOpt fd n.doctor_id = true
      ∧ matchOpt fp n.patient_id = true := by
  unfold get_all at h
  have h2 := List.drop_subset _ _ (List.take_subset _ _ h)
  have h3 := List.mem_filter.mp h2
  refine ⟨h3.1, ?_⟩
  simpa using h3.2

/-- C6: every note returned by list_notes lies in the own scope of the actor
(doctor actors only see their own `doctor_id`, patient actors their own
`patient_id`), intersected with the supplied counterpart filter when
present; and a counterpart filter matching no note in that scope
yields the empty list rather than an error. -/
theorem C6_list_notes_scoping (u : User) (fq : NotesFilterParams) (db : Db) :
    (∀ n ∈ list_notes u fq db,
      (u.role = .doctor →
        n.doctor_id = u.id
          ∧ (∀ pid, fq.patient_id = some pid → n.patient_id = pid))
      ∧ (u.role = .patient →
        n.patient_id = u.id
          ∧ (∀ did, fq.doctor_id = some did → n.doctor_id = did)))
    ∧ (u.role = .doctor → ∀ pid, fq.patient_id = some pid →
      (∀ n ∈ db.notes, ¬(n.doctor_id = u.id ∧ n.patient_id = pid)) →
      list_notes u fq db = [])
    ∧ (u.role = .patient → ∀ did, fq.doctor_id = some did →
      (∀ n ∈ db.notes, ¬(n.patient_id = u.id ∧ n.doctor_id = did)) →
      list_notes u fq db = []) := by
  refine ⟨?_, ?_, ?_⟩
  · intro n hn
    cases hr : u.role with
    | doctor =>
      refine ⟨fun _ => ?_, fun hpat => nomatch hpat⟩
      cases hp : fq.patient_id with
      | none =>
        simp [list_notes, hr, hp] at hn
        obtain ⟨-, hd, -⟩ := mem_get_all hn
        refine ⟨matchOpt_some hd, ?_⟩
        intro pid hpid
        cases hpid
      | some pid =>
        simp [list_notes, hr, hp] at hn
        obtain ⟨-, hd, hpm⟩ := mem_get_all hn
        refine ⟨matchOpt_some hd, ?_⟩
        intro pid' hpid
        cases hpid
        exact matchOpt_some hpm
    | patient =>
      refine ⟨fun hdoc => (nomatch hdoc), fun _ => ?_⟩
      cases hd : fq.doctor_id with
      | none =>
        simp [list_notes, hr, hd] at hn
        obtain ⟨-, -, hpm⟩ := mem_get_all hn
        refine ⟨matchOpt_some hpm, ?_⟩
        intro did hdid
        cases hdid
      | some did =>
        simp [list_notes, hr, hd] at hn
        obtain ⟨-, hdm, hpm⟩ := mem_get_all hn
        refine ⟨matchOpt_some hpm, ?_⟩
        intro did' hdid
        cases hdid
        exact matchOpt_some hdm
  · intro hr pid hp hnone
    have hfilter : db.notes.filter (fun n =>
        matchOpt (some u.id) n.doctor_id
          && matchOpt (some pid) n.patient_id) = [] := by
      rw [List.filter_eq_nil_iff]
      intro n hn hcond
      rw [Bool.and_eq_true] at hcond
      exact hnone n hn ⟨matchOpt_some hcond.1, matchOpt_some hcond.2⟩
    simp [list_notes, hr, hp, get_all, hfilter]
  · intro hr did hd hnone
    have hfilter : db.notes.filter (fun n =>
        matchOpt (some did) n.doctor_id
          && matchOpt (some u.id) n.patient_id) = [] := by
      rw [List.filter_eq_nil_iff]
      intro n hn hcond
      rw [Bool.and_eq_true] at hcond
      exact hnone n hn ⟨matchOpt_some hcond.2, matchOpt_some hcond.1⟩
    simp [list_notes, hr, hd, get_all, hfilter]

/-- C6 witness: patient 2 filtering by doctor 3, who never wrote them a
note, receives the empty list rather than an error. -/
theorem C6_list_notes_scoping_witness :
    list_notes samplePatient { doctor_id := some 3, patient_id := none }
      sampleDbNotes = [] :=
  (C6_list_notes_scoping samplePatient
      { doctor_id := some 3, patient_id := none } sampleDbNotes).2.2
    (by decide) 3 rfl (by decide)

/-! ### C1: batch validation of doctor ids on assignment -/

namespace PatientDoctorCrud

/-- Unfolding equation for `validate_doctors`. -/
theorem validate_doctors_eq (db : Db) (l : List Nat) :
    validate_doctors db l =
      if (l.filter (fun d => !isValidDoctorId db d)).isEmpty then
        .ok (l.filter (fun d => isValidDoctorId db d))
      else
        .error (.badRequest
          (validateDoctorsMsg (l.filter (fun d => !isValidDoctorId db d)))) :=
  rfl

/-- Unfolding equation for `create`. -/
theorem create_eq (t : Nat) (db : Db) (p : Nat) (ids : List Nat) :
    create t db p ids =
      if ids.isEmpty then
        (db, .error (.badRequest "Doctor IDs list cannot be empty."))
      else if (newIdsOf db p ids).isEmpty then
        (db, .error (.badRequest
          "All selected doctors are already assigned to this patient."))
      else
        match validate_doctors db (newIdsOf db p ids) with
        | .error e => (db, .error e)
        | .ok valid =>
          ({ db with assignments :=
              db.assignments ++ valid.map (fun d => mkAssignment t p d) },
            .ok (valid.map (fun d => mkAssignment t p d))) := by
  unfold create insert_assignments
  rfl

end PatientDoctorCrud

open PatientDoctorCrud in
/-- C1: whenever some requested id, after dropping the already-assigned
ones, does not resolve to an existing user with role Doctor, the whole
assign call fails with `BadRequest` whose message renders exactly the
list of invalid new ids, and the store is returned unchanged — zero
rows are created, also for the valid ids of the same batch.  The second
conjunct characterises that list: it holds exactly the requested new
ids failing the doctor check. -/
theorem C1_assign_invalid_ids_all_or_nothing (t p : Nat) (db : Db)
    (ids : List Nat) (h : invalidIdsOf db p ids ≠ []) :
    create t db p ids
      = (db, .error (.badRequest (validateDoctorsMsg (invalidIdsOf db p ids))))
    ∧ ∀ d, d ∈ invalidIdsOf db p ids ↔
        (d ∈ newIdsOf db p ids ∧ isValidDoctorId db d = false) := by
  have hchar : ∀ d, d ∈ invalidIdsOf db p ids ↔
      (d ∈ newIdsOf db p ids ∧ isValidDoctorId db d = false) := by
    intro d
    simp [invalidIdsOf, List.mem_filter]
  refine ⟨?_, hchar⟩
  obtain ⟨d, hd⟩ := List.exists_mem_of_ne_nil _ h
  have hdnew : d ∈ newIdsOf db p ids := ((hchar d).mp hd).1
  have hids : ids ≠ [] := by
    intro hnil
    subst hnil
    simp [newIdsOf] at hdnew
  have h1 : ids.isEmpty = false := by
    rw [Bool.eq_false_iff]
    intro htrue
    exact hids (List.isEmpty_iff.mp htrue)
  have h2 : (newIdsOf db p ids).isEmpty = false := by
    rw [Bool.eq_false_iff]
    intro htrue
    exact (List.ne_nil_of_mem hdnew) (List.isEmpty_iff.mp htrue)
  have h3 : ((newIdsOf db p ids).filter
      (fun d => !isValidDoctorId db d)).isEmpty = false := by
    rw [Bool.eq_false_iff]
    intro htrue
    exact h (List.isEmpty_iff.mp htrue)
  rw [create_eq]
  simp only [h1, h2, h3, validate_doctors_eq, Bool.false_eq_true, if_false]
  rfl

open PatientDoctorCrud in
/-- C1 witness: patient 5 requests doctors [1, 99]; id 99 is unknown, so
the call fails with `BadRequest` listing [99] and the store is
unchanged. -/
theorem C1_assign_invalid_ids_all_or_nothing_witness :
    create 0 sampleDb0 5 [1, 99]
      = (sampleDb0,
          .error (.badRequest (validateDoctorsMsg (invalidIdsOf sampleDb0 5 [1, 99])))) :=
  (C1_assign_invalid_ids_all_or_nothing 0 5 sampleDb0 [1, 99] (by decide)).1

/-! ### C7: set semantics of assignment -/

namespace PatientDoctorCrud

/-- Membership in the existing-assignments projection is existence of a
ledger row with the pair. -/
theorem mem_get_existing_assignments {db : Db} {p d : Nat} :
    d ∈ get_existing_assignments db p ↔
      ∃ r ∈ db.assignments, r.patient_id = p ∧ r.doctor_id = d := by
  simp only [get_existing_assignments, List.mem_dedup, List.mem_map,
    List.mem_filter, beq_iff_eq]
  constructor
  · rintro ⟨r, ⟨hr, hp⟩, hd⟩
    exact ⟨r, hr, hp, hd⟩
  · rintro ⟨r, hr, hp, hd⟩
    exact ⟨r, ⟨hr, hp⟩, hd⟩

/-- Characterisation of a successful `create`: the returned rows are one
per new id, appended to the ledger, and every new id passed the doctor
check. -/
theorem create_ok_iff {t p : Nat} {db : Db} {ids : List Nat} {db2 : Db}
    {rows : List PatientDoctor}
    (hok : create t db p ids = (db2, .ok rows)) :
    rows = (newIdsOf db p ids).map (fun d => mkAssignment t p d)
    ∧ db2.assignments = db.assignments ++ rows
    ∧ db2.users = db.users ∧ db2.notes = db.notes
    ∧ ∀ d ∈ newIdsOf db p ids, isValidDoctorId db d = true := by
  rw [create_eq] at hok
  by_cases hids : ids.isEmpty = true
  · rw [if_pos hids] at hok
    simp at hok
  · rw [if_neg hids] at hok
    by_cases hnew : (newIdsOf db p ids).isEmpty = true
    · rw [if_pos hnew] at hok
      simp at hok
    · rw [if_neg hnew, validate_doctors_eq] at hok
      by_cases hinv : ((newIdsOf db p ids).filter
          (fun d => !isValidDoctorId db d)).isEmpty = true
      · rw [if_pos hinv] at hok
        have hall : ∀ d ∈ newIdsOf db p ids, isValidDoctorId db d = true := by
          have hnil := List.isEmpty_iff.mp hinv
          rw [List.filter_eq_nil_iff] at hnil
          intro a ha
          simpa using hnil a ha
        have hvalid : (newIdsOf db p ids).filter
            (fun d => isValidDoctorId db d) = newIdsOf db p ids :=
          List.filter_eq_self.mpr hall
        rw [hvalid] at hok
        have h1 := congrArg Prod.fst hok
        have h2 := congrArg Prod.snd hok
        have hrows : (newIdsOf db p ids).map (fun d => mkAssignment t p d)
            = rows := by
          simpa using h2
        subst hrows
        have h1' : { db with assignments := db.assignments ++
            (newIdsOf db p ids).map (fun d => mkAssignment t p d) } = db2 := h1
        subst h1'
        exact ⟨rfl, rfl, rfl, rfl, hall⟩
      · rw [if_neg hinv] at hok
        simp at hok

end PatientDoctorCrud

open PatientDoctorCrud in
/-- C7: assigning with an empty id list fails with `BadRequest`; when
every requested id is already assigned the call fails with `BadRequest`
and leaves the store unchanged; a successful call creates rows exactly
for the requested ids not already assigned (already-assigned ids are
silently dropped) and appends them to the ledger; and after a
successful `assign(p, [d])`, repeating the call fails with `BadRequest`
and the ledger still holds exactly one `(p, d)` row. -/
theorem C7_assign_set_semantics (t p : Nat) (db : Db) :
    (create t db p []
      = (db, .error (.badRequest "Doctor IDs list cannot be empty.")))
    ∧ (∀ ids, ids ≠ [] → (∀ d ∈ ids, d ∈ get_existing_assignments db p) →
      create t db p ids = (db, .error (.badRequest
        "All selected doctors are already assigned to this patient.")))
    ∧ (∀ ids db2 rows, create t db p ids = (db2, .ok rows) →
      (∀ r ∈ rows, r.patient_id = p ∧ r.doctor_id ∈ ids
        ∧ r.doctor_id ∉ get_existing_assignments db p)
      ∧ (∀ d ∈ ids, d ∉ get_existing_assignments db p →
          ∃ r ∈ rows, r.doctor_id = d)
      ∧ db2.assignments = db.assignments ++ rows)
    ∧ (∀ d db1 rows1, isValidDoctorId db d = true →
      d ∉ get_existing_assignments db p →
      create t db p [d] = (db1, .ok rows1) →
      create t db1 p [d] = (db1, .error (.badRequest
        "All selected doctors are already assigned to this patient."))
      ∧ (db1.assignments.filter
          (fun r => r.patient_id == p && r.doctor_id == d)).length = 1) := by
  refine ⟨by simp [create_eq], ?_, ?_, ?_⟩
  · intro ids hne hall
    have hnew : newIdsOf db p ids = [] := by
      rw [newIdsOf, List.filter_eq_nil_iff]
      intro a ha hcon
      have hmem : a ∈ ids := List.mem_dedup.mp ha
      have hnm : a ∉ get_existing_assignments db p := by simpa using hcon
      exact hnm (hall a hmem)
    have h1 : ids.isEmpty = false := by
      rw [Bool.eq_false_iff]
      intro htrue
      exact hne (List.isEmpty_iff.mp htrue)
    simp [create_eq, h1, hnew]
  · intro ids db2 rows hok
    obtain ⟨hrows, hasg, -, -, -⟩ := create_ok_iff hok
    refine ⟨?_, ?_, hasg⟩
    · intro r hr
      rw [hrows] at hr
      obtain ⟨a, ha, rfl⟩ := List.mem_map.mp hr
      have ha2 := List.mem_filter.mp ha
      have hnm : a ∉ get_existing_assignments db p := by simpa using ha2.2
      exact ⟨rfl, List.mem_dedup.mp ha2.1, hnm⟩
    · intro d hd hnotmem
      have hdnew : d ∈ newIdsOf db p ids :=
        List.mem_filter.mpr ⟨List.mem_dedup.mpr hd, by simpa using hnotmem⟩
      refine ⟨mkAssignment t p d, ?_, rfl⟩
      rw [hrows]
      exact List.mem_map.mpr ⟨d, hdnew, rfl⟩
  · intro d db1 rows1 hval hnot hok
    obtain ⟨hrows, hasg, -, -, -⟩ := create_ok_iff hok
    have hnew : newIdsOf db p [d] = [d] := by
      simp [newIdsOf, hnot]
    rw [hnew] at hrows
    have hrows1 : rows1 = [mkAssignment t p d] := by simpa using hrows
    have hmemd : d ∈ get_existing_assignments db1 p := by
      rw [mem_get_existing_assignments]
      refine ⟨mkAssignment t p d, ?_, rfl, rfl⟩
      rw [hasg, hrows1]
      exact List.mem_append_right _ (List.mem_singleton_self _)
    have hnew1 : newIdsOf db1 p [d] = [] := by
      simp [newIdsOf, hmemd]
    constructor
    · simp [create_eq, hnew1]
    · have hdbfilter : db.assignments.filter
          (fun r => r.patient_id == p && r.doctor_id == d) = [] := by
        rw [List.filter_eq_nil_iff]
        intro r hr hcond
        rw [Bool.and_eq_true, beq_iff_eq, beq_iff_eq] at hcond
        exact hnot (mem_get_existing_assignments.mpr ⟨r, hr, hcond.1, hcond.2⟩)
      rw [hasg, hrows1, List.filter_append, hdbfilter]
      simp [mkAssignment]

open PatientDoctorCrud in
/-- C7 witness: after assigning doctor 1 to patient 2 succeeds once,
repeating the same assign fails with `BadRequest` and exactly one
`(2, 1)` row remains in the ledger. -/
theorem C7_assign_set_semantics_witness :
    create 0 sampleDb1 2 [1]
      = (sampleDb1, .error (.badRequest
          "All selected doctors are already assigned to this patient."))
    ∧ (sampleDb1.assignments.filter
        (fun r => r.patient_id == 2 && r.doctor_id == 1)).length = 1 :=
  (C7_assign_set_semantics 0 2 sampleDb0).2.2.2 1 sampleDb1
    [{ patient_id := 2, doctor_id := 1, assigned_at := 0 }]
    (by decide) (by decide) rfl

/-! ### C9: assigned_at stamps -/

open PatientDoctorCrud in
/-- C9 (evaluation at the failing input): the `assigned_at` column
default `Field(default=datetime.now(timezone.utc))` is evaluated once,
when app/models/patient_doctor.py is imported, so every row any assign
call creates carries that import-time constant, here 0.  Two successive
successful assign calls — necessarily made at ever later wall-clock
times — both stamp their rows with 0; no row ever carries the time of
its own call, contradicting `assigned_at = now` at assignment time. -/
theorem C9_assigned_at_is_import_time_constant :
    create 0 sampleDb0 2 [1]
      = (sampleDb1, .ok [{ patient_id := 2, doctor_id := 1, assigned_at := 0 }])
    ∧ create 0 sampleDb1 2 [3]
      = ({ sampleDb1 with assignments := sampleDb1.assignments ++
            [{ patient_id := 2, doctor_id := 3, assigned_at := 0 }] },
          .ok [{ patient_id := 2, doctor_id := 3, assigned_at := 0 }]) :=
  ⟨rfl, rfl⟩

/-! ### C2: all-or-nothing removal -/

namespace PatientDoctorCrud

/-- Unfolding equation for `delete`. -/
theorem delete_eq (db : Db) (p : Nat) (ids : List Nat) :
    delete db p ids =
      if ids.isEmpty then
        (db, .error (.badRequest "Doctor IDs list cannot be empty."))
      else
        match lookupAll db p ids with
        | .error e => (db, .error e)
        | .ok records =>
          ({ db with assignments :=
              records.foldl (fun l r => l.erase r) db.assignments },
            .ok ()) :=
  rfl

/-- A successful pair lookup returns a ledger row with that exact
pair. -/
theorem get_by_ok {db : Db} {p d : Nat} {r : PatientDoctor}
    (h : get_by_patient_and_doctor db p d = .ok r) :
    r ∈ db.assignments ∧ r.patient_id = p ∧ r.doctor_id = d := by
  unfold get_by_patient_and_doctor at h
  split at h
  · rename_i r' hf
    have heq : r' = r := by simpa using h
    subst heq
    have hmem := List.mem_of_find?_eq_some hf
    have hpred := List.find?_some hf
    rw [Bool.and_eq_true, beq_iff_eq, beq_iff_eq] at hpred
    exact ⟨hmem, hpred.1, hpred.2⟩
  · simp at h

/-- An existing pair makes the lookup succeed. -/
theorem get_by_isOk_of_pairExists {db : Db} {p d : Nat}
    (h : pairExists db p d = true) :
    ∃ r, get_by_patient_and_doctor db p d = .ok r := by
  have hex : ∃ x ∈ db.assignments,
      (x.patient_id == p && x.doctor_id == d) = true := by
    simpa [pairExists, List.any_eq_true] using h
  have hs : (db.assignments.find?
      (fun x => x.patient_id == p && x.doctor_id == d)).isSome :=
    List.find?_isSome.mpr hex
  obtain ⟨r, hr⟩ := Option.isSome_iff_exists.mp hs
  refine ⟨r, ?_⟩
  unfold get_by_patient_and_doctor
  rw [hr]

/-- A missing pair makes the lookup fail naming the doctor. -/
theorem get_by_error_of_not_pairExists {db : Db} {p d : Nat}
    (h : pairExists db p d = false) :
    get_by_patient_and_doctor db p d = .error (.notFound (notFoundMsg d)) := by
  have hnone : db.assignments.find?
      (fun x => x.patient_id == p && x.doctor_id == d) = none := by
    rw [List.find?_eq_none]
    intro x hx hpred
    have : pairExists db p d = true := by
      rw [pairExists, List.any_eq_true]
      exact ⟨x, hx, hpred⟩
    rw [this] at h
    exact Bool.noConfusion h
  unfold get_by_patient_and_doctor
  rw [hnone]

/-- The lookup phase aborts at the first requested id whose pair is
missing, with the store untouched. -/
theorem lookupAll_error {db : Db} {p : Nat} :
    ∀ {ids : List Nat} {d₀ : Nat},
      ids.find? (fun d => !pairExists db p d) = some d₀ →
      lookupAll db p ids = .error (.notFound (notFoundMsg d₀)) := by
  intro ids
  induction ids with
  | nil =>
    intro d₀ h
    simp at h
  | cons d ds ih =>
    intro d₀ h
    by_cases hp : pairExists db p d = true
    · rw [List.find?_cons_of_neg _ (by simp [hp])] at h
      obtain ⟨r, hr⟩ := get_by_isOk_of_pairExists hp
      rw [lookupAll, hr, ih h]
      rfl
    · have hp' : pairExists db p d = false := by
        simpa using hp
      rw [List.find?_cons_of_pos _ (by simp [hp'])] at h
      have hd : d = d₀ := by simpa using h
      subst hd
      rw [lookupAll, get_by_error_of_not_pairExists hp']
      rfl

/-- When every requested pair exists the lookup phase succeeds. -/
theorem lookupAll_isOk_of_all {db : Db} {p : Nat} :
    ∀ {ids : List Nat}, (∀ d ∈ ids, pairExists db p d = true) →
      ∃ records, lookupAll db p ids = .ok records := by
  intro ids
  induction ids with
  | nil =>
    intro _
    exact ⟨[], rfl⟩
  | cons d ds ih =>
    intro hall
    obtain ⟨r, hr⟩ := get_by_isOk_of_pairExists (hall d (List.mem_cons_self d ds))
    obtain ⟨rs, hrs⟩ := ih (fun a ha => hall a (List.mem_cons_of_mem d ha))
    refine ⟨r :: rs, ?_⟩
    rw [lookupAll, hr, hrs]
    rfl

/-- Characterisation of a successful lookup phase: every returned record
is a ledger row with a requested pair, and every requested id
contributes its looked-up record. -/
theorem lookupAll_ok {db : Db} {p : Nat} :
    ∀ {ids : List Nat} {records : List PatientDoctor},
      lookupAll db p ids = .ok records →
      (∀ r ∈ records, r ∈ db.assignments ∧ r.patient_id = p
        ∧ r.doctor_id ∈ ids)
      ∧ (∀ d ∈ ids, ∃ r ∈ records,
          get_by_patient_and_doctor db p d = .ok r) := by
  intro ids
  induction ids with
  | nil =>
    intro records h
    have : records = [] := by simpa [lookupAll] using h.symm
    subst this
    constructor
    · intro r hr
      simp at hr
    · intro d hd
      simp at hd
  | cons d ds ih =>
    intro records h
    cases hget : get_by_patient_and_doctor db p d with
    | error e =>
      rw [lookupAll, hget] at h
      exact Except.noConfusion
        (show (Except.error e : Except ApiError (List PatientDoctor))
          = .ok records from h)
    | ok r =>
      cases hrest : lookupAll db p ds with
      | error e =>
        rw [lookupAll, hget, hrest] at h
        exact Except.noConfusion
          (show (Except.error e : Except ApiError (List PatientDoctor))
            = .ok records from h)
      | ok rs =>
        rw [lookupAll, hget, hrest] at h
        have hrec : records = r :: rs :=
          (Except.ok.inj
            (show (Except.ok (r :: rs) : Except ApiError (List PatientDoctor))
              = .ok records from h)).symm
        subst hrec
        obtain ⟨ih1, ih2⟩ := ih hrest
        obtain ⟨hrm, hrp, hrd⟩ := get_by_ok hget
        constructor
        · intro x hx
          rcases List.mem_cons.mp hx with hxr | hxrs
          · subst hxr
            exact ⟨hrm, hrp, by rw [hrd]; exact List.mem_cons_self d ds⟩
          · obtain ⟨h1, h2, h3⟩ := ih1 x hxrs
            exact ⟨h1, h2, List.mem_cons_of_mem d h3⟩
        · intro a ha
          rcases List.mem_cons.mp ha with had | hads
          · subst had
            exact ⟨r, List.mem_cons_self r rs, hget⟩
          · obtain ⟨x, hx1, hx2⟩ := ih2 a hads
            exact ⟨x, List.mem_cons_of_mem r hx1, hx2⟩

/-- Membership after erasing every looked-up record from a duplicate-free
ledger. -/
theorem mem_foldl_erase :
    ∀ (records : List PatientDoctor) (l : List PatientDoctor), l.Nodup →
      ∀ x, (x ∈ records.foldl (fun acc r => acc.erase r) l ↔
        x ∈ l ∧ x ∉ records) := by
  intro records
  induction records with
  | nil =>
    intro l _ x
    simp
  | cons r rs ih =>
    intro l hN x
    simp only [List.foldl_cons]
    rw [ih (l.erase r) (hN.erase r) x, hN.mem_erase_iff]
    constructor
    · rintro ⟨⟨hxr, hxl⟩, hxrs⟩
      refine ⟨hxl, ?_⟩
      simp [hxr, hxrs]
    · rintro ⟨hxl, hnotin⟩
      simp only [List.mem_cons, not_or] at hnotin
      exact ⟨⟨hnotin.1, hxl⟩, hnotin.2⟩

end PatientDoctorCrud

open PatientDoctorCrud in
/-- C2: with a duplicate-free ledger in which the pair determines the
row, removing a non-empty batch of doctors fails with `NotFound` naming
the first requested doctor whose pair is missing — leaving the ledger
unchanged — and, when every requested pair exists, succeeds deleting
exactly the rows whose pair was requested. -/
theorem C2_remove_all_or_nothing (db : Db) (p : Nat) (ids : List Nat)
    (hne : ids ≠ [])
    (hN : db.assignments.Nodup)
    (hU : ∀ r ∈ db.assignments, ∀ s ∈ db.assignments,
      r.patient_id = s.patient_id → r.doctor_id = s.doctor_id → r = s) :
    (∀ d₀, ids.find? (fun d => !pairExists db p d) = some d₀ →
      delete db p ids = (db, .error (.notFound (notFoundMsg d₀))))
    ∧ ((∀ d ∈ ids, pairExists db p d = true) →
      (delete db p ids).2 = .ok ()
      ∧ (∀ x ∈ db.assignments,
          (x ∈ (delete db p ids).1.assignments ↔
            ¬(x.patient_id = p ∧ x.doctor_id ∈ ids)))
      ∧ (delete db p ids).1.users = db.users
      ∧ (delete db p ids).1.notes = db.notes) := by
  have hidsE : ids.isEmpty = false := by
    rw [Bool.eq_false_iff]
    intro htrue
    exact hne (List.isEmpty_iff.mp htrue)
  constructor
  · intro d₀ hfind
    rw [delete_eq]
    simp [hidsE, lookupAll_error hfind]
  · intro hall
    obtain ⟨records, hlk⟩ := lookupAll_isOk_of_all hall
    obtain ⟨hfwd, hbwd⟩ := lookupAll_ok hlk
    have hdel : delete db p ids =
        ({ db with assignments :=
            records.foldl (fun l r => l.erase r) db.assignments },
          .ok ()) := by
      rw [delete_eq]
      simp [hidsE, hlk]
    rw [hdel]
    refine ⟨rfl, ?_, rfl, rfl⟩
    intro x hx
    rw [mem_foldl_erase records db.assignments hN x]
    have hrec : x ∈ records ↔ (x.patient_id = p ∧ x.doctor_id ∈ ids) := by
      constructor
      · intro hxr
        obtain ⟨-, h2, h3⟩ := hfwd x hxr
        exact ⟨h2, h3⟩
      · rintro ⟨hp, hd⟩
        obtain ⟨r, hr1, hr2⟩ := hbwd x.doctor_id hd
        obtain ⟨hrm, hrp, hrd⟩ := get_by_ok hr2
        have hxr : x = r := hU x hx r hrm (hp.trans hrp.symm) hrd.symm
        rw [hxr]
        exact hr1
    constructor
    · rintro ⟨-, hnr⟩
      intro hpair
      exact hnr (hrec.mpr hpair)
    · intro hnpair
      refine ⟨hx, ?_⟩
      intro hxr
      exact hnpair (hrec.mp hxr)

open PatientDoctorCrud in
/-- C2 witness: with doctor 1 assigned to patient 2 and doctor 3 never
assigned, removing [1, 3] fails with `NotFound` naming doctor 3 and the
ledger is unchanged — the valid id 1 is not removed either. -/
theorem C2_remove_all_or_nothing_witness :
    delete sampleDb1 2 [1, 3]
      = (sampleDb1, .error (.notFound (notFoundMsg 3))) :=
  (C2_remove_all_or_nothing sampleDb1 2 [1, 3]
      (by decide) (by decide) (by decide)).1 3 (by decide)

end Hospital
